import Mathlib

/-!
Verification development for the ChatRelay agent-orchestration and
tool-dispatch engine.

The definitions below are a shallow embedding of the JavaScript sources:

* `src/lib/toolBridge.js` — the Tool Directory Cache (`normalizeTool`,
  `refreshTools`, `executeToolCall`): JS values are modelled by `JsValue`,
  the mutable module state (`cachedTools`/`cacheFetchedAt`/`inflightPromise`)
  by `CacheState`, and the interleaving of concurrent callers and fetch
  completions by a trace of `CacheEvent`s folded with `cacheStep`.
* `src/lib/agents/agentRegistry.js` — the static agent registry and the
  synthesized delegation-tool descriptors (`getHelperAgentTools`).
* `src/lib/agents/helperExecutor.js` — the ephemeral helper loop
  (`executeHelper`), with the completion service and the tool gateway
  modelled as oracle functions in `CoordEnv`.
* `src/lib/agents/mainCoordinator.js` — the coordinator loop
  (`handleRequest`); a thrown JS exception is modelled by the `failed`
  field of the run outcome.
* `src/server.js` — the chat loop `handleAssistantResponse` wired to
  `/api/chat` (`serverLoop`).
* the debug event collector — the bounded per-session retained log
  (`addEventList`, `addEventStore`).

Long inert prompt strings from the sources are abridged to their first
sentence: no theorem inspects the prompt text, only its identity.
-/

/-! ## JavaScript value model (for `normalizeTool` and the `/tools` payload) -/

/-- A JavaScript value, as far as `toolBridge.js` inspects one:
`null`, `undefined`, booleans, numbers (integers suffice here), strings,
arrays and plain objects (association lists of fields). -/
inductive JsValue where
  | null
  | undef
  | bool (b : Bool)
  | num (n : Int)
  | str (s : String)
  | arr (xs : List JsValue)
  | obj (fields : List (String × JsValue))
deriving Repr

mutual

/-- Decidable equality for `JsValue` (the derive handler does not support
this nested inductive, so the decision procedure is spelled out). -/
def JsValue.decEq : (a b : JsValue) → Decidable (a = b)
  | JsValue.null, JsValue.null => isTrue rfl
  | JsValue.undef, JsValue.undef => isTrue rfl
  | JsValue.bool a, JsValue.bool b =>
    match Bool.decEq a b with
    | isTrue h => isTrue (h ▸ rfl)
    | isFalse h => isFalse (fun hh => h (JsValue.bool.inj hh))
  | JsValue.num a, JsValue.num b =>
    match Int.decEq a b with
    | isTrue h => isTrue (h ▸ rfl)
    | isFalse h => isFalse (fun hh => h (JsValue.num.inj hh))
  | JsValue.str a, JsValue.str b =>
    match String.decEq a b with
    | isTrue h => isTrue (h ▸ rfl)
    | isFalse h => isFalse (fun hh => h (JsValue.str.inj hh))
  | JsValue.arr a, JsValue.arr b =>
    match JsValue.decEqList a b with
    | isTrue h => isTrue (h ▸ rfl)
    | isFalse h => isFalse (fun hh => h (JsValue.arr.inj hh))
  | JsValue.obj a, JsValue.obj b =>
    match JsValue.decEqFields a b with
    | isTrue h => isTrue (h ▸ rfl)
    | isFalse h => isFalse (fun hh => h (JsValue.obj.inj hh))
  | JsValue.null, JsValue.undef => isFalse (fun h => JsValue.noConfusion h)
  | JsValue.null, JsValue.bool _ => isFalse (fun h => JsValue.noConfusion h)
  | JsValue.null, JsValue.num _ => isFalse (fun h => JsValue.noConfusion h)
  | JsValue.null, JsValue.str _ => isFalse (fun h => JsValue.noConfusion h)
  | JsValue.null, JsValue.arr _ => isFalse (fun h => JsValue.noConfusion h)
  | JsValue.null, JsValue.obj _ => isFalse (fun h => JsValue.noConfusion h)
  | JsValue.undef, JsValue.null => isFalse (fun h => JsValue.noConfusion h)
  | JsValue.undef, JsValue.bool _ => isFalse (fun h => JsValue.noConfusion h)
  | JsValue.undef, JsValue.num _ => isFalse (fun h => JsValue.noConfusion h)
  | JsValue.undef, JsValue.str _ => isFalse (fun h => JsValue.noConfusion h)
  | JsValue.undef, JsValue.arr _ => isFalse (fun h => JsValue.noConfusion h)
  | JsValue.undef, JsValue.obj _ => isFalse (fun h => JsValue.noConfusion h)
  | JsValue.bool _, JsValue.null => isFalse (fun h => JsValue.noConfusion h)
  | JsValue.bool _, JsValue.undef => isFalse (fun h => JsValue.noConfusion h)
  | JsValue.bool _, JsValue.num _ => isFalse (fun h => JsValue.noConfusion h)
  | JsValue.bool _, JsValue.str _ => isFalse (fun h => JsValue.noConfusion h)
  | JsValue.bool _, JsValue.arr _ => isFalse (fun h => JsValue.noConfusion h)
  | JsValue.bool _, JsValue.obj _ => isFalse (fun h => JsValue.noConfusion h)
  | JsValue.num _, JsValue.null => isFalse (fun h => JsValue.noConfusion h)
  | JsValue.num _, JsValue.undef => isFalse (fun h => JsValue.noConfusion h)
  | JsValue.num _, JsValue.bool _ => isFalse (fun h => JsValue.noConfusion h)
  | JsValue.num _, JsValue.str _ => isFalse (fun h => JsValue.noConfusion h)
  | JsValue.num _, JsValue.arr _ => isFalse (fun h => JsValue.noConfusion h)
  | JsValue.num _, JsValue.obj _ => isFalse (fun h => JsValue.noConfusion h)
  | JsValue.str _, JsValue.null => isFalse (fun h => JsValue.noConfusion h)
  | JsValue.str _, JsValue.undef => isFalse (fun h => JsValue.noConfusion h)
  | JsValue.str _, JsValue.bool _ => isFalse (fun h => JsValue.noConfusion h)
  | JsValue.str _, JsValue.num _ => isFalse (fun h => JsValue.noConfusion h)
  | JsValue.str _, JsValue.arr _ => isFalse (fun h => JsValue.noConfusion h)
  | JsValue.str _, JsValue.obj _ => isFalse (fun h => JsValue.noConfusion h)
  | JsValue.arr _, JsValue.null => isFalse (fun h => JsValue.noConfusion h)
  | JsValue.arr _, JsValue.undef => isFalse (fun h => JsValue.noConfusion h)
  | JsValue.arr _, JsValue.bool _ => isFalse (fun h => JsValue.noConfusion h)
  | JsValue.arr _, JsValue.num _ => isFalse (fun h => JsValue.noConfusion h)
  | JsValue.arr _, JsValue.str _ => isFalse (fun h => JsValue.noConfusion h)
  | JsValue.arr _, JsValue.obj _ => isFalse (fun h => JsValue.noConfusion h)
  | JsValue.obj _, JsValue.null => isFalse (fun h => JsValue.noConfusion h)
  | JsValue.obj _, JsValue.undef => isFalse (fun h => JsValue.noConfusion h)
  | JsValue.obj _, JsValue.bool _ => isFalse (fun h => JsValue.noConfusion h)
  | JsValue.obj _, JsValue.num _ => isFalse (fun h => JsValue.noConfusion h)
  | JsValue.obj _, JsValue.str _ => isFalse (fun h => JsValue.noConfusion h)
  | JsValue.obj _, JsValue.arr _ => isFalse (fun h => JsValue.noConfusion h)

def JsValue.decEqList : (a b : List JsValue) → Decidable (a = b)
  | [], [] => isTrue rfl
  | [], _ :: _ => isFalse (fun h => List.noConfusion h)
  | _ :: _, [] => isFalse (fun h => List.noConfusion h)
  | x :: xs, y :: ys =>
    match JsValue.decEq x y, JsValue.decEqList xs ys with
    | isTrue h1, isTrue h2 => isTrue (h1 ▸ h2 ▸ rfl)
    | isFalse h1, _ => isFalse (fun h => h1 (List.head_eq_of_cons_eq h))
    | _, isFalse h2 => isFalse (fun h => h2 (List.tail_eq_of_cons_eq h))

def JsValue.decEqFields : (a b : List (String × JsValue)) → Decidable (a = b)
  | [], [] => isTrue rfl
  | [], _ :: _ => isFalse (fun h => List.noConfusion h)
  | _ :: _, [] => isFalse (fun h => List.noConfusion h)
  | (k1, v1) :: xs, (k2, v2) :: ys =>
    match String.decEq k1 k2, JsValue.decEq v1 v2, JsValue.decEqFields xs ys with
    | isTrue h0, isTrue h1, isTrue h2 => isTrue (h0 ▸ h1 ▸ h2 ▸ rfl)
    | isFalse h0, _, _ =>
        isFalse (fun h => h0 (congrArg Prod.fst (List.head_eq_of_cons_eq h)))
    | _, isFalse h1, _ =>
        isFalse (fun h => h1 (congrArg Prod.snd (List.head_eq_of_cons_eq h)))
    | _, _, isFalse h2 => isFalse (fun h => h2 (List.tail_eq_of_cons_eq h))

end

instance : DecidableEq JsValue := JsValue.decEq

/-- JS `typeof` for the cases `JsValue` covers (`typeof null` is `"object"`,
and arrays are `"object"` too). -/
def JsValue.typeof : JsValue → String
  | JsValue.null => "object"
  | JsValue.undef => "undefined"
  | JsValue.bool _ => "boolean"
  | JsValue.num _ => "number"
  | JsValue.str _ => "string"
  | JsValue.arr _ => "object"
  | JsValue.obj _ => "object"

/-- JS truthiness (`NaN` is not modelled; `0`, `""`, `null`, `undefined`
and `false` are falsy, everything else truthy). -/
def JsValue.truthy : JsValue → Bool
  | JsValue.null => false
  | JsValue.undef => false
  | JsValue.bool b => b
  | JsValue.num n => n != 0
  | JsValue.str s => s != ""
  | JsValue.arr _ => true
  | JsValue.obj _ => true

/-- Property access `v.k`: a missing field, or access on a non-object
(as `normalizeTool` performs only after its object guard, where JS would
yield `undefined` for arrays), is `undefined`. -/
def JsValue.getField (v : JsValue) (k : String) : JsValue :=
  match v with
  | JsValue.obj fs =>
      match fs.find? (fun p => p.1 == k) with
      | some p => p.2
      | none => JsValue.undef
  | _ => JsValue.undef

/-- JS `a || b`. -/
def jsOr (a b : JsValue) : JsValue := if a.truthy then a else b

/-! ## `toolBridge.js`: tool normalization -/

/-- A normalized tool descriptor as built by `normalizeTool` in
`toolBridge.js`: the four fields of the returned object literal.  The
`name` field is whatever `tool.name` evaluated to (possibly `undefined`). -/
structure NormTool where
  name : JsValue
  description : JsValue
  origin : JsValue
  parameters : JsValue
deriving DecidableEq, Repr

/-- The fallback parameters object from `toolBridge.js` line 39. -/
def defaultParameters : JsValue :=
  JsValue.obj [("type", JsValue.str "object"), ("properties", JsValue.obj [])]

/-- Model of `normalizeTool` from `toolBridge.js` lines 37-46:
`if (!tool || typeof tool !== 'object') return null;` then build the
descriptor, defaulting `description` to `''`, `origin` to `'mcp'` and
`parameters` to `{type: 'object', properties: {}}` when
`tool.parameters` is falsy or not of object type. -/
def normalizeTool (tool : JsValue) : Option NormTool :=
  if tool.truthy ∧ tool.typeof = "object" then
    let ps := tool.getField "parameters"
    some
      { name := tool.getField "name"
        description := jsOr (tool.getField "description") (JsValue.str "")
        origin := jsOr (tool.getField "origin") (JsValue.str "mcp")
        parameters :=
          if ps.truthy ∧ ps.typeof = "object" then ps else defaultParameters }
  else
    none

/-- The `refreshTools` payload handling, lines 57-59:
`Array.isArray(payload?.tools) ? payload.tools : []` followed by
`.map(normalizeTool).filter(Boolean)`. -/
def normalizeToolsPayload (payload : JsValue) : List NormTool :=
  let rawTools :=
    match payload.getField "tools" with
    | JsValue.arr xs => xs
    | _ => []
  rawTools.filterMap normalizeTool

/-- Amended normalization contract, written from the amended spec words:
an entry is dropped exactly when it is not a (truthy) JS object — arrays,
being `typeof 'object'` and truthy, survive; an entry **missing `name` is
kept** with its `name` left `undefined`; `description` defaults to `""`,
`origin` defaults to `"mcp"`, and a falsy or non-object `parameters` is
replaced by `{type: 'object', properties: {}}`. -/
def normalizeToolAmended (tool : JsValue) : Option NormTool :=
  match tool with
  | JsValue.obj _ =>
      some
        { name := tool.getField "name"
          description :=
            if (tool.getField "description").truthy then tool.getField "description"
            else JsValue.str ""
          origin :=
            if (tool.getField "origin").truthy then tool.getField "origin"
            else JsValue.str "mcp"
          parameters :=
            if (tool.getField "parameters").truthy ∧
                (tool.getField "parameters").typeof = "object" then
              tool.getField "parameters"
            else defaultParameters }
  | JsValue.arr _ =>
      some
        { name := JsValue.undef
          description := JsValue.str ""
          origin := JsValue.str "mcp"
          parameters := defaultParameters }
  | _ => none

/-! ## `toolBridge.js`: the Tool Directory Cache state machine

The module-level mutable state (`cachedTools`, `cacheFetchedAt`,
`inflightPromise`) is `CacheState`; `fetchCount` counts remote `/tools`
requests actually issued.  A caller entering `refreshTools` runs its
synchronous prefix atomically (single-threaded JS event loop): either it
is served from the warm cache, or it awaits the existing in-flight
promise, or it starts a new fetch.  Completion of the in-flight fetch is
a separate event (the body of the async IIFE, whose `finally` clears
`inflightPromise`). -/

/-- Default `TOOL_CACHE_TTL_MS` (`Math.max(5_000, ... || '60000')`). -/
def TOOL_CACHE_TTL_MS : Nat := 60000

structure CacheState where
  cachedTools : List NormTool
  cacheFetchedAt : Nat
  inflight : Bool
  fetchCount : Nat
deriving DecidableEq, Repr

/-- The initial module state: `cachedTools = []`, `cacheFetchedAt = 0`,
no in-flight promise. -/
def initialCacheState : CacheState :=
  { cachedTools := [], cacheFetchedAt := 0, inflight := false, fetchCount := 0 }

/-- What a caller of `refreshTools` observes synchronously. -/
inductive CallOutcome where
  /-- Served the cached descriptor set without touching the fetch path
  (`!force && cachedTools.length && now() - cacheFetchedAt < TTL`). -/
  | cachedHit (tools : List NormTool)
  /-- Returned the existing `inflightPromise`: the caller awaits the
  outstanding fetch. -/
  | joined
  /-- Created a fresh `inflightPromise`: a new remote fetch was issued. -/
  | started
deriving DecidableEq, Repr

/-- The synchronous prefix of `refreshTools` (lines 48-55 and 72). -/
def refreshCall (s : CacheState) (force : Bool) (tnow : Nat) :
    CacheState × CallOutcome :=
  if ¬force ∧ s.cachedTools ≠ [] ∧ tnow - s.cacheFetchedAt < TOOL_CACHE_TTL_MS then
    (s, CallOutcome.cachedHit s.cachedTools)
  else if s.inflight then
    (s, CallOutcome.joined)
  else
    ({ s with inflight := true, fetchCount := s.fetchCount + 1 },
      CallOutcome.started)

/-- Successful completion of the in-flight fetch (lines 57-61 and 69):
normalize the payload, install it as the cache, stamp the time, clear the
in-flight marker; the awaiting callers all receive the new list. -/
def fetchOk (s : CacheState) (payload : JsValue) (tnow : Nat) :
    CacheState × List NormTool :=
  let tools := normalizeToolsPayload payload
  ({ s with cachedTools := tools, cacheFetchedAt := tnow, inflight := false },
    tools)

/-- Failed completion of the in-flight fetch (lines 62-69): the cache is
left untouched, the in-flight marker is cleared, and the awaiting callers
receive the last good descriptor set, or `[]` when none exists. -/
def fetchErr (s : CacheState) : CacheState × List NormTool :=
  ({ s with inflight := false },
    if s.cachedTools = [] then [] else s.cachedTools)

/-- One event of an interleaving: a caller entering `refreshTools`, or the
outstanding fetch settling (completions are no-ops when nothing is in
flight, which cannot arise in a real trace). -/
inductive CacheEvent where
  | call (force : Bool) (tnow : Nat)
  | settleOk (payload : JsValue) (tnow : Nat)
  | settleErr
deriving DecidableEq, Repr

def cacheStep (s : CacheState) (e : CacheEvent) : CacheState :=
  match e with
  | CacheEvent.call force tnow => (refreshCall s force tnow).1
  | CacheEvent.settleOk payload tnow => if s.inflight then (fetchOk s payload tnow).1 else s
  | CacheEvent.settleErr => if s.inflight then (fetchErr s).1 else s

/-- Fold a trace of events, recording the outcome each caller observed. -/
def cacheRunTrace (s : CacheState) : List CacheEvent → CacheState × List CallOutcome
  | [] => (s, [])
  | e :: rest =>
    match e with
    | CacheEvent.call force tnow =>
        let p := refreshCall s force tnow
        let r := cacheRunTrace p.1 rest
        (r.1, p.2 :: r.2)
    | _ =>
        cacheRunTrace (cacheStep s e) rest

def CacheEvent.isCall : CacheEvent → Bool
  | CacheEvent.call _ _ => true
  | _ => false

/-- A trace fragment consisting only of callers (no fetch settles): this
is exactly "while the fetch is pending". -/
def allCallEvents (evs : List CacheEvent) : Prop :=
  ∀ e ∈ evs, e.isCall = true

instance (evs : List CacheEvent) : Decidable (allCallEvents evs) := by
  unfold allCallEvents
  infer_instance

/-! ## `agentRegistry.js`: agent configuration and delegation tools -/

/-- One agent configuration (`MAIN_AGENT_CONFIG` / `HELPER_AGENT_CONFIGS`
entries).  `toolPatterns` (regex capability sets) are omitted: no claim
below depends on `filterToolsForAgent`. -/
structure AgentConfig where
  id : String
  name : String
  description : String
  systemPrompt : String
  maxIterations : Nat
  contextWindow : Int
  persistent : Bool
deriving DecidableEq, Repr

/-- Model of `MAIN_AGENT_CONFIG` (prompt abridged to its first sentence). -/
def MAIN_AGENT_CONFIG : AgentConfig :=
  { id := "main"
    name := "Main Coordinator"
    description := "Coordinates conversation and delegates to specialized helpers"
    systemPrompt := "You are a helpful AI assistant that coordinates conversations and delegates tasks to specialized helper agents when needed."
    maxIterations := 5
    contextWindow := -1
    persistent := true }

/-- Model of `HELPER_AGENT_CONFIGS.research` (prompt abridged). -/
def researchHelperConfig : AgentConfig :=
  { id := "research"
    name := "Research Helper"
    description := "Specialized in web research and information gathering"
    systemPrompt := "You are a research specialist focused on gathering and analyzing information."
    maxIterations := 4
    contextWindow := 6
    persistent := false }

/-- Model of `HELPER_AGENT_CONFIGS.code` (prompt abridged). -/
def codeHelperConfig : AgentConfig :=
  { id := "code"
    name := "Code Helper"
    description := "Specialized in code execution and sandbox operations"
    systemPrompt := "You are a code execution specialist with access to sandboxed JavaScript environments."
    maxIterations := 5
    contextWindow := 8
    persistent := false }

/-- The `HELPER_AGENT_CONFIGS` map in object-key insertion order. -/
def HELPER_AGENT_CONFIGS : List (String × AgentConfig) :=
  [("research", researchHelperConfig), ("code", codeHelperConfig)]

/-- Model of `getMainAgent()`. -/
def getMainAgent : AgentConfig := MAIN_AGENT_CONFIG

/-- Model of `getHelperAgent(helperId)`: `null` for an unknown id. -/
def getHelperAgent (helperId : String) : Option AgentConfig :=
  (HELPER_AGENT_CONFIGS.find? (fun p => p.1 == helperId)).map Prod.snd

/-- Model of `listHelperIds()`. -/
def listHelperIds : List String := HELPER_AGENT_CONFIGS.map Prod.fst

/-- A JSON-schema property of a delegation tool's parameters object. -/
structure ParamProp where
  ptype : String
  pdescription : String
deriving DecidableEq, Repr

/-- The `parameters` object of a delegation tool. -/
structure ParamsSchema where
  stype : String
  properties : List (String × ParamProp)
  required : List String
deriving DecidableEq, Repr

/-- One synthesized delegation-tool descriptor (`getHelperAgentTools`). -/
structure HelperToolDesc where
  name : String
  description : String
  parameters : ParamsSchema
  origin : String
  helperId : String
deriving DecidableEq, Repr

/-- Model of `getHelperAgentTools()` from `agentRegistry.js` lines 261-289: one
descriptor per configured helper, named `call_<helperId>_agent`, with a
`task` (required) and `context` (optional) string parameter, tagged
`origin = 'helper-agent'` and carrying the target `helperId`. -/
def getHelperAgentTools : List HelperToolDesc :=
  HELPER_AGENT_CONFIGS.map (fun p =>
    { name := "call_" ++ p.1 ++ "_agent"
      description :=
        "Delegate a task to the " ++ p.2.name ++ ". " ++ p.2.description ++ "."
      parameters :=
        { stype := "object"
          properties :=
            [("task",
              { ptype := "string"
                pdescription := "Clear description of the task to delegate to this helper" }),
             ("context",
              { ptype := "string"
                pdescription := "Relevant context from the conversation to help the helper understand the task" })]
          required := ["task"] }
      origin := "helper-agent"
      helperId := p.1 })

/-! ## Messages, tool calls and the oracle environment -/

/-- An OpenAI-style tool call (`{id, function: {name, arguments}}`);
`arguments` is the raw JSON string accumulated from the stream. -/
structure ToolCall where
  id : String
  fname : String
  argumentsStr : String
deriving DecidableEq, Repr

/-- A completion-service response as assembled by `streamModelResponse`. -/
structure ModelResponse where
  content : String
  toolCalls : List ToolCall
deriving DecidableEq, Repr

/-- The `/call-tool` reply `{name, content}` returned by
`toolBridge.executeToolCall`. -/
structure ToolCallResult where
  name : String
  content : String
deriving DecidableEq, Repr

/-- A conversation `Message`.  `toolCalls` is `[]` when absent; the
optional fields are `none` when absent. -/
structure Message where
  role : String
  content : String
  toolCalls : List ToolCall := []
  toolCallId : Option String := none
  name : Option String := none
  origin : Option String := none
deriving DecidableEq, Repr

/-- The remote collaborators and caller-supplied callbacks of a run,
modelled as oracles:

* `modelResponse` — `streamModelResponse` applied to a message list
  (tool schemas and the model id are absorbed into the oracle); an
  `Except.error` is a thrown completion-service failure;
* `execTool` — `toolBridge.executeToolCall`; an `Except.error` covers a
  gateway-unreachable failure, a non-2xx reply and the
  `Invalid JSON arguments` parse rejection alike;
* `parseTaskContext` — the `JSON.parse(arguments)`-with-`{}`-fallback and
  `{task, context: context || ''}` extraction performed before a
  delegation (the claims do not depend on the JSON grammar);
* `shouldStop` — the cancellation predicate, polled once per iteration. -/
structure CoordEnv where
  modelResponse : List Message → Except String ModelResponse
  execTool : ToolCall → Except String ToolCallResult
  parseTaskContext : String → String × String
  shouldStop : Nat → Bool

/-- JS `conversation.slice(-n)` for positive `n`. -/
def lastN {α : Type} (n : Nat) (l : List α) : List α := l.drop (l.length - n)

/-! ## `helperExecutor.js`: the ephemeral helper loop -/

/-- Truthiness of JS `s.trim()`: a string trims to a non-empty string
exactly when it contains a non-whitespace character.  (Stated over the
character list so that the kernel can evaluate it on literals.) -/
def hasNonWhitespace (s : String) : Bool :=
  s.data.any (fun ch => !ch.isWhitespace)

/-- Model of `formatConversationContext` (lines 161-169): role-prefixed lines,
each message body truncated to 200 characters. -/
def formatConversationContext (msgs : List Message) : String :=
  String.intercalate "\n" (msgs.map (fun m =>
    (if m.role = "user" then "User" else "Assistant") ++ ": " ++ m.content.take 200))

/-- The helper's isolated message list (lines 58-92): system prompt,
current user, optional context note, optional recent-conversation note
(last `contextWindow` messages), and the delegated task. -/
def helperInitMessages (h : AgentConfig) (task ctx username : String)
    (conversation : List Message) : List Message :=
  let base : List Message :=
    [{ role := "system", content := h.systemPrompt },
     { role := "system", content := "Current user: " ++ username }]
  let withCtx :=
    if hasNonWhitespace ctx then
      base ++ [{ role := "system", content := "Context from main coordinator:\n" ++ ctx }]
    else base
  let recent := lastN h.contextWindow.toNat conversation
  let withConv :=
    if conversation ≠ [] ∧ recent ≠ [] then
      withCtx ++
        [{ role := "system",
           content := "Recent conversation (for context):\n" ++ formatConversationContext recent }]
    else withCtx
  withConv ++ [{ role := "user", content := "Task from coordinator: " ++ task }]

/-- Outcome of one helper run.  `calls` counts the completion-service
invocations made by this helper's own loop; `failed` models a thrown
exception escaping `executeHelper`. -/
structure HelperOutcome where
  content : String
  iters : Nat
  calls : Nat
  failed : Option String
deriving DecidableEq, Repr

/-- The helper's per-iteration tool execution (lines 124-134): each call
goes straight to `toolBridge.executeToolCall` with **no** try/catch, so
the first failure aborts the helper run. -/
def helperToolResults (env : CoordEnv) : List ToolCall → Except String (List Message)
  | [] => Except.ok []
  | c :: rest =>
    match env.execTool c with
    | Except.error e => Except.error e
    | Except.ok tr =>
      match helperToolResults env rest with
      | Except.error e => Except.error e
      | Except.ok ms =>
        Except.ok
          ({ role := "tool", content := tr.content, name := some tr.name,
             toolCallId := some c.id } :: ms)

/-- The helper's bounded iteration loop (`executeHelper` lines 95-144),
structurally recursive on the remaining budget `fuel`
(`maxIterations - iteration`). -/
def helperLoop (env : CoordEnv) (fuel iter calls : Nat) (msgs : List Message)
    (finalContent : String) : HelperOutcome :=
  match fuel with
  | 0 => { content := finalContent, iters := iter, calls := calls, failed := none }
  | Nat.succ f =>
    let it := iter + 1
    match env.shouldStop it with
    | true =>
      { content := finalContent, iters := it, calls := calls, failed := none }
    | false =>
      match env.modelResponse msgs with
      | Except.error e =>
          { content := finalContent, iters := it, calls := calls + 1, failed := some e }
      | Except.ok resp =>
        match resp.toolCalls.isEmpty with
        | true =>
          { content := resp.content, iters := it, calls := calls + 1, failed := none }
        | false =>
          match helperToolResults env resp.toolCalls with
          | Except.error e =>
              { content := resp.content, iters := it, calls := calls + 1, failed := some e }
          | Except.ok tms =>
            helperLoop env f it (calls + 1)
              (msgs ++
                [{ role := "assistant", content := resp.content,
                   toolCalls := resp.toolCalls }] ++ tms)
              resp.content

/-- Model of `executeHelper` (lines 25-154): unknown helper ids fail immediately;
otherwise run the bounded loop on the helper's isolated message list. -/
def executeHelper (env : CoordEnv) (helperId task ctx username : String)
    (conversation : List Message) : HelperOutcome :=
  match getHelperAgent helperId with
  | none =>
      { content := "", iters := 0, calls := 0,
        failed := some ("Unknown helper: " ++ helperId) }
  | some h =>
      helperLoop env h.maxIterations 0 0
        (helperInitMessages h task ctx username conversation) ""

/-! ## `mainCoordinator.js`: the coordinator loop -/

/-- A retained debug event (`debugEventCollector` log entries and the SSE
helper lifecycle frames; both sinks are gated on `debug`, the SSE frames
additionally on a connected `sendToken`, which the model assumes
present). -/
inductive DbgEvent where
  | mainIteration (iter : Nat) (hasToolCalls : Bool) (toolCount : Nat)
  | helperSpawn (helperId : String) (task : String)
  | helperComplete (helperId : String) (iters : Nat)
  | helperError (helperId : String) (err : String)
  | toolExecution (toolName : String) (err : Option String)
deriving DecidableEq, Repr

/-- The delegation-tool lookup `helperTools.find(t => t.name === toolName)` (line 135). -/
def isHelperCall (helperTools : List HelperToolDesc) (toolName : String) :
    Option HelperToolDesc :=
  helperTools.find? (fun t => t.name == toolName)

/-- Result of processing one response's tool calls (the `for` loop at
lines 124-256).  On an ordinary (non-delegation) tool failure, `failed`
is set: the JS code logs the error event and **rethrows** (line 253), so
the collected `toolResults` never reach `currentMessages` and the calls
after the failing one are not executed. -/
structure ProcessOut where
  msgs : List Message
  events : List DbgEvent
  failed : Option String
deriving DecidableEq, Repr

/-- The per-call dispatch of `handleRequest` (lines 124-256): a call whose
name matches a synthesized delegation tool runs `executeHelper` and
converts success or failure into a tool-result `Message` tagged
`origin = 'helper-agent'`; any other call goes to
`toolBridge.executeToolCall`, whose failure is rethrown. -/
def processCalls (env : CoordEnv) (helperTools : List HelperToolDesc) (debug : Bool)
    (username : String) (conversation : List Message) :
    List ToolCall → ProcessOut
  | [] => { msgs := [], events := [], failed := none }
  | c :: rest =>
    match isHelperCall helperTools c.fname with
    | some ht =>
      let tc := env.parseTaskContext c.argumentsStr
      let spawnEv : List DbgEvent :=
        if debug then [DbgEvent.helperSpawn ht.helperId tc.1] else []
      let hres := executeHelper env ht.helperId tc.1 tc.2 username (lastN 6 conversation)
      match hres.failed with
      | none =>
        let doneEv : List DbgEvent :=
          if debug then [DbgEvent.helperComplete ht.helperId hres.iters] else []
        let m : Message :=
          { role := "tool", name := some c.fname
            content :=
              if hres.content = "" then "Helper completed successfully" else hres.content
            toolCallId := some c.id, origin := some "helper-agent" }
        let r := processCalls env helperTools debug username conversation rest
        { msgs := m :: r.msgs, events := spawnEv ++ doneEv ++ r.events, failed := r.failed }
      | some e =>
        let errEv : List DbgEvent :=
          if debug then [DbgEvent.helperError ht.helperId e] else []
        let m : Message :=
          { role := "tool", name := some c.fname
            content := "Helper agent error: " ++ e
            toolCallId := some c.id, origin := some "helper-agent" }
        let r := processCalls env helperTools debug username conversation rest
        { msgs := m :: r.msgs, events := spawnEv ++ errEv ++ r.events, failed := r.failed }
    | none =>
      match env.execTool c with
      | Except.ok tr =>
        let ev : List DbgEvent :=
          if debug then [DbgEvent.toolExecution c.fname none] else []
        let m : Message :=
          { role := "tool", name := some tr.name, content := tr.content
            toolCallId := some c.id, origin := some "mcp-tool" }
        let r := processCalls env helperTools debug username conversation rest
        { msgs := m :: r.msgs, events := ev ++ r.events, failed := r.failed }
      | Except.error e =>
        { msgs := []
          events := if debug then [DbgEvent.toolExecution c.fname (some e)] else []
          failed := some e }

/-- Full state of one coordinator run.  `msgs` is `currentMessages`,
`calls` counts this loop's own completion-service invocations (helper
loops count their own), `failed` models an exception escaping
`handleRequest`. -/
structure CoordRunOut where
  msgs : List Message
  finalContent : String
  finalToolCalls : List ToolCall
  iters : Nat
  calls : Nat
  events : List DbgEvent
  failed : Option String
deriving DecidableEq, Repr

/-- The `while (iteration < mainAgent.maxIterations)` loop of
`handleRequest` (lines 83-267), structurally recursive on the remaining
budget `fuel`.  Exhausting the budget falls through to the normal return
path (no distinct failure is signalled). -/
def coordLoop (env : CoordEnv) (helperTools : List HelperToolDesc) (debug : Bool)
    (username : String) (conversation : List Message) :
    Nat → Nat → Nat → List Message → String → List ToolCall → List DbgEvent →
    CoordRunOut
  | 0, iter, calls, msgs, finalContent, finalToolCalls, events =>
    { msgs := msgs, finalContent := finalContent, finalToolCalls := finalToolCalls,
      iters := iter, calls := calls, events := events, failed := none }
  | Nat.succ f, iter, calls, msgs, finalContent, finalToolCalls, events =>
    let it := iter + 1
    match env.shouldStop it with
    | true =>
      { msgs := msgs, finalContent := finalContent, finalToolCalls := finalToolCalls,
        iters := it, calls := calls, events := events, failed := none }
    | false =>
      match env.modelResponse msgs with
      | Except.error e =>
          { msgs := msgs, finalContent := finalContent,
            finalToolCalls := finalToolCalls, iters := it, calls := calls + 1,
            events := events, failed := some e }
      | Except.ok resp =>
        let evIter : List DbgEvent :=
          if debug then
            [DbgEvent.mainIteration it (!resp.toolCalls.isEmpty) resp.toolCalls.length]
          else []
        match resp.toolCalls.isEmpty with
        | true =>
          { msgs := msgs ++ [{ role := "assistant", content := resp.content }]
            finalContent := resp.content, finalToolCalls := resp.toolCalls,
            iters := it, calls := calls + 1, events := events ++ evIter,
            failed := none }
        | false =>
          let pc := processCalls env helperTools debug username conversation resp.toolCalls
          match pc.failed with
          | some e =>
            { msgs := msgs, finalContent := resp.content,
              finalToolCalls := resp.toolCalls, iters := it, calls := calls + 1,
              events := events ++ evIter ++ pc.events, failed := some e }
          | none =>
            coordLoop env helperTools debug username conversation f it (calls + 1)
              (msgs ++
                [{ role := "assistant", content := resp.content,
                   toolCalls := resp.toolCalls }] ++ pc.msgs)
              resp.content resp.toolCalls (events ++ evIter ++ pc.events)

/-- The initial message list of `handleRequest` (lines 61-75): the two
system prompts, the caller's full conversation, and the new user
message. -/
def coordInitMessages (username userMessage : String) (conversation : List Message) :
    List Message :=
  [{ role := "system", content := getMainAgent.systemPrompt },
   { role := "system", content := "Current user: " ++ username }] ++
    conversation ++ [{ role := "user", content := userMessage }]

/-- Model of `handleRequest` (lines 27-280).  The second component is the
`messages` field of the returned object:
`currentMessages.slice(mainAgentMessages.length)` (line 271).  The
caller-supplied `conversation` is only ever read (spread at line 70,
`slice(-6)` at line 164), which the pure embedding reflects by taking it
as an immutable value. -/
def handleRequest (env : CoordEnv) (userMessage username : String)
    (conversation : List Message) (enableHelpers debug : Bool) :
    CoordRunOut × List Message :=
  let helperTools := if enableHelpers then getHelperAgentTools else []
  let initMsgs := coordInitMessages username userMessage conversation
  let out :=
    coordLoop env helperTools debug username conversation
      getMainAgent.maxIterations 0 0 initMsgs "" [] []
  (out, out.msgs.drop initMsgs.length)

/-! ## `server.js`: the chat loop `handleAssistantResponse` -/

/-- Default `TOOL_LOOP_LIMIT` (`Math.max(1, ... || '4')`). -/
def MAX_TOOL_ITERATIONS : Nat := 4

/-- The oracle environment of the server chat loop (payload assembly —
system prompt, toolbelt summary, `sanitizeForModel` trimming — is
absorbed into the `modelResponse` oracle; none of the claims below
inspects it). -/
structure ServerEnv where
  modelResponse : List Message → Except String ModelResponse
  execTool : ToolCall → Except String ToolCallResult

/-- Outcome of `handleAssistantResponse`: the conversation as mutated by
the run, the number of completion-service invocations, and the thrown
error if any. -/
structure ServerOut where
  conv : List Message
  calls : Nat
  failed : Option String
deriving DecidableEq, Repr

/-- The tool-dispatch block of `handleAssistantResponse` (lines 358-376):
every call — delegation does not exist here — is tried, and a failure is
**caught** and converted into a tool-result `Message` whose content is
`Tool <name> failed: <message>`, tagged `origin = 'tool'`. -/
def serverToolResults (env : ServerEnv) (callList : List ToolCall) : List Message :=
  callList.map (fun c =>
    let outputText :=
      match env.execTool c with
      | Except.ok tr =>
          if tr.content = "" then "Tool completed without returning content." else tr.content
      | Except.error e =>
          "Tool " ++ (if c.fname = "" then "unknown" else c.fname) ++ " failed: " ++ e
    let label := if c.fname = "" then "tool" else c.fname
    { role := "tool", name := some label, content := outputText,
      toolCallId := some c.id, origin := some "tool" })

/-- The `while (iterations < MAX_TOOL_ITERATIONS)` loop of
`handleAssistantResponse` (lines 321-382), structurally recursive on the
remaining budget.  Exhausting the budget **throws**
`Tool invocation limit exceeded.` (line 381). -/
def serverLoop (env : ServerEnv) : Nat → List Message → Nat → ServerOut
  | 0, conv, calls =>
    { conv := conv, calls := calls, failed := some "Tool invocation limit exceeded." }
  | Nat.succ f, conv, calls =>
    match env.modelResponse conv with
    | Except.error e => { conv := conv, calls := calls + 1, failed := some e }
    | Except.ok resp =>
      let conv1 :=
        conv ++
          [{ role := "assistant", content := resp.content, toolCalls := resp.toolCalls }]
      match resp.toolCalls.isEmpty with
      | true =>
        { conv := conv1, calls := calls + 1, failed := none }
      | false =>
        serverLoop env f (conv1 ++ serverToolResults env resp.toolCalls) (calls + 1)

/-- Model of `handleAssistantResponse` entered with `iterations = 0`. -/
def handleAssistantResponse (env : ServerEnv) (conv : List Message) : ServerOut :=
  serverLoop env MAX_TOOL_ITERATIONS conv 0

/-! ## The debug event collector: bounded per-session retained log -/

/-- The capacity `MAX_EVENTS_PER_SESSION`. -/
def MAX_EVENTS_PER_SESSION : Nat := 500

/-- The `addEvent` list update (push, then
`events.splice(0, events.length - MAX_EVENTS_PER_SESSION)` when over
capacity, which keeps the **last** `MAX_EVENTS_PER_SESSION` entries). -/
def addEventList {α : Type} (events : List α) (e : α) : List α :=
  let es := events ++ [e]
  if MAX_EVENTS_PER_SESSION < es.length then
    es.drop (es.length - MAX_EVENTS_PER_SESSION)
  else es

/-- The `sessionEvents` map, as a total function defaulting to `[]`
(`getEvents` returns `[]` for an absent key).  `addEvent` ignores a falsy
(empty) username. -/
def addEventStore {α : Type} (store : String → List α) (username : String) (e : α) :
    String → List α :=
  if username = "" then store
  else fun k => if k = username then addEventList (store k) e else store k

/-! ## Concrete inputs used by the counterexamples and witnesses -/

/-- The `/tools` payload used in the concrete cache traces below. -/
def payloadEx : JsValue :=
  JsValue.obj [("tools", JsValue.arr [JsValue.obj [("name", JsValue.str "t1")]])]
/-- The state after a successful initial fetch of `payloadEx` (at time 1)
followed by a forced refresh entering flight at time 2. -/
def warmPendingState : CacheState :=
  (cacheRunTrace initialCacheState
    [CacheEvent.call false 0, CacheEvent.settleOk payloadEx 1,
     CacheEvent.call true 2]).1
/-- Concrete inputs exercising `c3_single_inflight_fetch`. -/
def pendingStateEx : CacheState :=
  { cachedTools := [], cacheFetchedAt := 0, inflight := true, fetchCount := 1 }
def idleStateEx : CacheState :=
  { cachedTools := [], cacheFetchedAt := 0, inflight := false, fetchCount := 0 }
def concurrentCallsEx : List CacheEvent :=
  [CacheEvent.call true 5, CacheEvent.call true 6, CacheEvent.call false 7]
/-- The `maxIterations` of the agent a helper id resolves to (0 when the id
is unknown and `executeHelper` fails without looping). -/
def helperMaxIterations (hid : String) : Nat :=
  match getHelperAgent hid with
  | some h => h.maxIterations
  | none => 0
/-- A coordinator-run environment whose single ordinary tool call fails:
iteration 1 answers with a `_fetch` call and `executeToolCall` throws. -/
def envC1 : CoordEnv :=
  { modelResponse := fun ms =>
      if ms.length = 3 then
        Except.ok
          { content := "",
            toolCalls := [{ id := "c1", fname := "_fetch", argumentsStr := "notjson" }] }
      else Except.ok { content := "done", toolCalls := [] }
    execTool := fun _ => Except.error "Tool service error (500): boom"
    parseTaskContext := fun _ => ("", "")
    shouldStop := fun _ => false }
/-- A server environment whose completion service is down. -/
def serverEnvModelErr : ServerEnv :=
  { modelResponse := fun _ => Except.error "model down"
    execTool := fun _ => Except.ok { name := "t", content := "r" } }
/-- A server environment whose tool gateway is unreachable. -/
def serverEnvToolErr : ServerEnv :=
  { modelResponse := fun _ => Except.ok { content := "x", toolCalls := [] }
    execTool := fun _ => Except.error "gateway unreachable" }
def toolCallEx : ToolCall := { id := "c1", fname := "_fetch", argumentsStr := "notjson" }
/-- A coordinator environment whose tool gateway is unreachable. -/
def coordEnvToolErr : CoordEnv :=
  { modelResponse := fun _ =>
      Except.ok { content := "", toolCalls := [toolCallEx] }
    execTool := fun _ => Except.error "gateway unreachable"
    parseTaskContext := fun _ => ("", "")
    shouldStop := fun _ => false }
/-- A coordinator-run environment in which the model, for the coordinator
conversation (recognized by the main system prompt at its head), always
delegates to the research helper, while helper conversations finish at
once: the loop never reaches the terminal zero-tool-calls state. -/
def envC2 : CoordEnv :=
  { modelResponse := fun ms =>
      if ms.head?.map Message.content = some getMainAgent.systemPrompt then
        Except.ok
          { content := "partial answer",
            toolCalls :=
              [{ id := "d1", fname := "call_research_agent", argumentsStr := "t" }] }
      else Except.ok { content := "helper summary", toolCalls := [] }
    execTool := fun _ => Except.ok { name := "t", content := "r" }
    parseTaskContext := fun _ => ("t", "c")
    shouldStop := fun _ => false }
/-- A coordinator environment that always delegates, with helper runs
finishing at once (constant responses, so the budget hypotheses hold
definitionally). -/
def envC2W : CoordEnv :=
  { modelResponse := fun _ =>
      Except.ok
        { content := "c",
          toolCalls :=
            [{ id := "d1", fname := "call_research_agent", argumentsStr := "t" }] }
    execTool := fun _ => Except.ok { name := "t", content := "r" }
    parseTaskContext := fun _ => ("t", "c")
    shouldStop := fun _ => false }
/-- A server environment whose model always asks for a `_fetch` call. -/
def serverEnvLooping : ServerEnv :=
  { modelResponse := fun _ =>
      Except.ok
        { content := "c",
          toolCalls := [{ id := "s1", fname := "_fetch", argumentsStr := "u" }] }
    execTool := fun _ => Except.ok { name := "_fetch", content := "r" } }
/-- A coordinator-run environment in which iteration 1 delegates to the
research helper, the helper's own model call throws `boom`, and the
coordinator's next iteration finishes normally. -/
def envC8 : CoordEnv :=
  { modelResponse := fun ms =>
      if ms.head?.map Message.content = some getMainAgent.systemPrompt then
        (if ms.length ≤ 3 then
          Except.ok
            { content := "",
              toolCalls :=
                [{ id := "h1", fname := "call_research_agent", argumentsStr := "t" }] }
        else Except.ok { content := "done", toolCalls := [] })
      else Except.error "boom"
    execTool := fun _ => Except.ok { name := "t", content := "r" }
    parseTaskContext := fun _ => ("t", "")
    shouldStop := fun _ => false }
/-- A coordinator environment whose completion service always throws, so
the helper spawned by a delegation call fails immediately. -/
def envC8W : CoordEnv :=
  { modelResponse := fun _ => Except.error "boom"
    execTool := fun _ => Except.ok { name := "t", content := "r" }
    parseTaskContext := fun _ => ("t", "")
    shouldStop := fun _ => false }
def delegCallEx : ToolCall :=
  { id := "h1", fname := "call_research_agent", argumentsStr := "t" }
/-- The synthesized delegation-tool descriptor for the research helper. -/
def researchDelegationTool : HelperToolDesc :=
  (getHelperAgentTools.get? 0).getD
    { name := "", description := "",
      parameters := { stype := "", properties := [], required := [] },
      origin := "", helperId := "" }

/-! # Theorems -/

/-! ## Tool Directory Cache: coalescing and stale-but-available -/
/-- While a fetch is pending, caller events leave the cache state
untouched: each caller is either served the (unchanged) cached set
synchronously or joins the outstanding fetch, and no new remote call is
issued. -/
theorem cacheRunTrace_pending (s : CacheState) (hs : s.inflight = true) :
    ∀ evs, allCallEvents evs →
      (cacheRunTrace s evs).1 = s ∧
      ∀ o ∈ (cacheRunTrace s evs).2,
        o = CallOutcome.joined ∨ o = CallOutcome.cachedHit s.cachedTools
  | [], _ => by simp [cacheRunTrace]
  | e :: rest, h => by
      have he := h e (List.mem_cons_self e rest)
      have hrest : allCallEvents rest := fun x hx => h x (List.mem_cons_of_mem _ hx)
      cases e with
      | call f t =>
          have hstep : (refreshCall s f t).1 = s ∧
              ((refreshCall s f t).2 = CallOutcome.joined ∨
               (refreshCall s f t).2 = CallOutcome.cachedHit s.cachedTools) := by
            unfold refreshCall
            split
            · simp
            · simp [hs]
          have ih := cacheRunTrace_pending s hs rest hrest
          simp only [cacheRunTrace, hstep.1, ih.1]
          refine ⟨trivial, ?_⟩
          intro o ho
          rcases List.mem_cons.mp ho with ho | ho
          · exact ho ▸ hstep.2
          · exact ih.2 o ho
      | settleOk payload t => exact absurd he (by simp [CacheEvent.isCall])
      | settleErr => exact absurd he (by simp [CacheEvent.isCall])
/-- C3 (amended): at most one remote fetch is ever in flight.  While a
fetch is pending, further `refreshTools` callers issue no remote call:
each either awaits the same outstanding fetch or — non-forced calls
against a warm cache — is served the previously cached set synchronously;
and a forced call from an idle state followed by any number of concurrent
callers during the resulting pending fetch issues exactly one remote
call. -/
theorem c3_single_inflight_fetch (s : CacheState) (evs : List CacheEvent) (t : Nat) :
    (s.inflight = true → allCallEvents evs →
      (cacheRunTrace s evs).1.fetchCount = s.fetchCount ∧
      (cacheRunTrace s evs).1.inflight = true ∧
      ∀ o ∈ (cacheRunTrace s evs).2,
        o = CallOutcome.joined ∨ o = CallOutcome.cachedHit s.cachedTools) ∧
    (s.inflight = false → allCallEvents evs →
      (cacheRunTrace s (CacheEvent.call true t :: evs)).1.fetchCount =
        s.fetchCount + 1) := by
  constructor
  · intro hs hc
    have h := cacheRunTrace_pending s hs evs hc
    exact ⟨by rw [h.1], by rw [h.1]; exact hs, h.2⟩
  · intro hs hc
    have hstart : refreshCall s true t =
        ({ s with inflight := true, fetchCount := s.fetchCount + 1 },
          CallOutcome.started) := by
      unfold refreshCall
      simp [hs]
    have hpend := cacheRunTrace_pending
      { s with inflight := true, fetchCount := s.fetchCount + 1 } rfl evs hc
    simp only [cacheRunTrace, hstart]
    rw [hpend.1]
/-- C3 counterexample: the claim says **all** callers that arrive while a
fetch is pending await that same outstanding result.  In the concrete
trace `warmPendingState` a forced refresh is pending (`inflight = true`),
yet a non-forced `refreshTools` call at time 3 is served the *previously*
cached descriptor set synchronously (`cachedHit`) — it does not await the
outstanding fetch. -/
theorem c3_counterexample :
    warmPendingState.inflight = true ∧
    (refreshCall warmPendingState false 3).2 =
      CallOutcome.cachedHit warmPendingState.cachedTools ∧
    (refreshCall warmPendingState false 3).2 ≠ CallOutcome.joined := by
  refine ⟨by decide, by decide, by decide⟩
/-- Witness for `c3_single_inflight_fetch`: three callers arriving during
a pending fetch leave the remote-call count at 1; a forced call from idle
followed by the same three callers issues exactly one remote call. -/
theorem c3_single_inflight_fetch_witness :
    pendingStateEx.inflight = true ∧ allCallEvents concurrentCallsEx ∧
    (cacheRunTrace pendingStateEx concurrentCallsEx).1.fetchCount =
      pendingStateEx.fetchCount ∧
    idleStateEx.inflight = false ∧
    (cacheRunTrace idleStateEx
        (CacheEvent.call true 4 :: concurrentCallsEx)).1.fetchCount =
      idleStateEx.fetchCount + 1 :=
  ⟨rfl, by decide,
   ((c3_single_inflight_fetch pendingStateEx concurrentCallsEx 4).1 rfl (by decide)).1,
   rfl,
   (c3_single_inflight_fetch idleStateEx concurrentCallsEx 4).2 rfl (by decide)⟩
/-- C7: when the remote fetch of a `refreshTools` call fails, the cache
keeps its last good descriptor set unchanged and the callers receive that
set (or `[]` when the cache was never populated); in particular a
successful fetch followed by a forced refresh whose fetch fails returns
exactly the previously cached descriptors. -/
theorem c7_stale_on_fetch_failure (s : CacheState) (payload : JsValue)
    (tFetch tCall : Nat) :
    ((fetchErr s).1.cachedTools = s.cachedTools) ∧
    (s.cachedTools ≠ [] → (fetchErr s).2 = s.cachedTools) ∧
    (s.cachedTools = [] → (fetchErr s).2 = []) ∧
    ((refreshCall (fetchOk s payload tFetch).1 true tCall).2 = CallOutcome.started) ∧
    (normalizeToolsPayload payload ≠ [] →
      (fetchErr (refreshCall (fetchOk s payload tFetch).1 true tCall).1).2 =
        normalizeToolsPayload payload ∧
      (fetchErr (refreshCall (fetchOk s payload tFetch).1 true tCall).1).1.cachedTools =
        normalizeToolsPayload payload) := by
  refine ⟨rfl, ?_, ?_, ?_, ?_⟩
  · intro h
    simp [fetchErr, h]
  · intro h
    simp [fetchErr, h]
  · unfold refreshCall fetchOk
    simp
  · intro h
    unfold refreshCall fetchOk fetchErr
    simp [h]
/-- Witness for `c7_stale_on_fetch_failure`: a fetch of `payloadEx`
populates the cache; a later forced refresh whose fetch fails returns the
previously cached normalized descriptor unchanged. -/
theorem c7_stale_on_fetch_failure_witness :
    normalizeToolsPayload payloadEx ≠ [] ∧
    (fetchErr (refreshCall (fetchOk initialCacheState payloadEx 1).1 true 2).1).2 =
      normalizeToolsPayload payloadEx :=
  ⟨by decide,
   ((c7_stale_on_fetch_failure initialCacheState payloadEx 1 2).2.2.2.2 (by decide)).1⟩
/-! ## Tool normalization (C5) -/
/-- C5 counterexample: normalization does **not** drop an entry missing a
`name` — the object `{description: 'd'}` survives with `name` left
`undefined` — and the default `origin` filled on surviving descriptors is
`'mcp'`, not `'remote'`. -/
theorem c5_counterexample :
    normalizeTool (JsValue.obj [("description", JsValue.str "d")]) =
      some { name := JsValue.undef, description := JsValue.str "d",
             origin := JsValue.str "mcp", parameters := defaultParameters } ∧
    (normalizeTool (JsValue.obj [("name", JsValue.str "t")])).map NormTool.origin =
      some (JsValue.str "mcp") ∧
    JsValue.str "mcp" ≠ JsValue.str "remote" := by
  refine ⟨by decide, by decide, by decide⟩
/-- C5 (amended): `normalizeTool` coincides with the amended contract —
non-object entries (and falsy ones such as `null`) are dropped, entries
missing `name` are kept with `name` undefined, a falsy or non-object
`parameters` is replaced by the default schema, and the defaults are
`description = ''` and `origin = 'mcp'`. -/
theorem c5_normalization_amended (tool : JsValue) :
    normalizeTool tool = normalizeToolAmended tool := by
  cases tool <;>
    simp [normalizeTool, normalizeToolAmended, JsValue.truthy, JsValue.typeof,
      jsOr, JsValue.getField]
/-! ## Delegation-tool synthesis (C6) -/
/-- C6 counterexample: for the configured helper ids the Agent Registry
synthesizes descriptors named `call_research_agent` and `call_code_agent`
— no descriptor named `delegate_to_research` (or `delegate_to_<id>` for
any configured id) exists — and the origin marker is `helper-agent`, not
`helper-delegation`. -/
theorem c6_counterexample :
    getHelperAgentTools.map HelperToolDesc.name =
      ["call_research_agent", "call_code_agent"] ∧
    getHelperAgentTools.filter (fun t => t.name == "delegate_to_research") = [] ∧
    getHelperAgentTools.all (fun t => t.origin == "helper-agent") = true ∧
    getHelperAgentTools.all (fun t => t.origin != "helper-delegation") = true := by
  refine ⟨by decide, by decide, by decide, by decide⟩
/-- C6 (amended): for every configured helper id `H`, the Agent Registry
synthesizes exactly one delegation-tool descriptor, named
`call_<H>_agent`, whose parameters schema is an object with a required
string `task` and an optional string `context`, tagged
`origin = 'helper-agent'` and carrying the target helper id `H`. -/
theorem c6_delegation_tools_amended (hid : String) (hmem : hid ∈ listHelperIds) :
    (getHelperAgentTools.filter (fun t => t.helperId == hid)).length = 1 ∧
    ∀ t ∈ getHelperAgentTools, t.helperId = hid →
      t.name = "call_" ++ hid ++ "_agent" ∧
      t.origin = "helper-agent" ∧
      t.parameters.stype = "object" ∧
      t.parameters.properties.map Prod.fst = ["task", "context"] ∧
      t.parameters.properties.map (fun p => p.2.ptype) = ["string", "string"] ∧
      t.parameters.required = ["task"] := by
  simp only [listHelperIds, HELPER_AGENT_CONFIGS, List.map_cons, List.map_nil,
    List.mem_cons, List.not_mem_nil, or_false] at hmem
  rcases hmem with h | h <;> subst h <;> refine ⟨by decide, by decide⟩
/-- Witness for `c6_delegation_tools_amended` at the configured helper id
`research`. -/
theorem c6_delegation_tools_amended_witness :
    "research" ∈ listHelperIds ∧
    (getHelperAgentTools.filter (fun t => t.helperId == "research")).length = 1 :=
  ⟨by decide, (c6_delegation_tools_amended "research" (by decide)).1⟩
/-! ## Bounded per-session debug-event log (C9) -/
/-- C9: after any `addEvent`, the retained per-session log holds at most
`MAX_EVENTS_PER_SESSION` (500) entries; the surviving entries are a
suffix of the old log followed by the new entry (so the oldest entries
are evicted first and insertion order is preserved); below capacity,
nothing is evicted; and the bound is preserved at every session key of
the store. -/
theorem c9_event_log_bounded (l : List String) (e : String)
    (store : String → List String) (u k : String) (ev : String) :
    (addEventList l e).length ≤ MAX_EVENTS_PER_SESSION ∧
    List.IsSuffix (addEventList l e) (l ++ [e]) ∧
    ((l ++ [e]).length ≤ MAX_EVENTS_PER_SESSION → addEventList l e = l ++ [e]) ∧
    ((store k).length ≤ MAX_EVENTS_PER_SESSION →
      ((addEventStore store u ev) k).length ≤ MAX_EVENTS_PER_SESSION) := by
  have key : ∀ (l2 : List String) (e2 : String),
      (addEventList l2 e2).length ≤ MAX_EVENTS_PER_SESSION ∧
      List.IsSuffix (addEventList l2 e2) (l2 ++ [e2]) ∧
      ((l2 ++ [e2]).length ≤ MAX_EVENTS_PER_SESSION →
        addEventList l2 e2 = l2 ++ [e2]) := by
    intro l2 e2
    unfold addEventList
    by_cases h : MAX_EVENTS_PER_SESSION < (l2 ++ [e2]).length
    · simp only [h, if_true]
      refine ⟨?_, List.drop_suffix _ _, ?_⟩
      · rw [List.length_drop]
        omega
      · intro hle
        omega
    · simp only [h, if_false]
      exact ⟨Nat.le_of_not_lt h, List.suffix_refl _, by simp⟩
  refine ⟨(key l e).1, (key l e).2.1, (key l e).2.2, ?_⟩
  intro hk
  unfold addEventStore
  by_cases hu : u = ""
  · simpa [hu] using hk
  · by_cases hku : k = u
    · simpa [hu, hku] using (key (store k) ev).1
    · simpa [hu, hku] using hk
/-- Witness for `c9_event_log_bounded` at a concrete one-element log and
a concrete store. -/
theorem c9_event_log_bounded_witness :
    ((["a"] : List String) ++ ["b"]).length ≤ MAX_EVENTS_PER_SESSION ∧
    addEventList (["a"] : List String) "b" = ["a"] ++ ["b"] ∧
    (((fun _ => ([] : List String)) "k").length ≤ MAX_EVENTS_PER_SESSION) ∧
    ((addEventStore (fun _ => ([] : List String)) "alice" "ev") "k").length ≤
      MAX_EVENTS_PER_SESSION :=
  ⟨by decide,
   (c9_event_log_bounded ["a"] "b" (fun _ => []) "alice" "k" "ev").2.2.1 (by decide),
   by decide,
   (c9_event_log_bounded ["a"] "b" (fun _ => []) "alice" "k" "ev").2.2.2 (by decide)⟩
/-! ## Coordinator and server loop lemmas -/
/-- The only failures `processCalls` can signal come from an ordinary
(non-delegation) tool call whose `executeToolCall` threw: helper
delegation failures are converted, never propagated. -/
theorem processCalls_failed_source (env : CoordEnv) (hts : List HelperToolDesc)
    (dbg : Bool) (un : String) (conv : List Message) :
    ∀ (cs : List ToolCall) (e : String),
      (processCalls env hts dbg un conv cs).failed = some e →
      ∃ c ∈ cs, isHelperCall hts c.fname = none ∧ env.execTool c = Except.error e := by
  intro cs
  induction cs with
  | nil => intro e h; simp [processCalls] at h
  | cons c rest ih =>
    intro e h
    cases hfind : isHelperCall hts c.fname with
    | some ht =>
      simp only [processCalls, hfind] at h
      cases hfail : (executeHelper env ht.helperId
          (env.parseTaskContext c.argumentsStr).1
          (env.parseTaskContext c.argumentsStr).2 un (lastN 6 conv)).failed with
      | none =>
        simp only [hfail] at h
        obtain ⟨c2, hc2, hn, he⟩ := ih e h
        exact ⟨c2, List.mem_cons_of_mem _ hc2, hn, he⟩
      | some e2 =>
        simp only [hfail] at h
        obtain ⟨c2, hc2, hn, he⟩ := ih e h
        exact ⟨c2, List.mem_cons_of_mem _ hc2, hn, he⟩
    | none =>
      cases hexec : env.execTool c with
      | ok tr =>
        simp only [processCalls, hfind, hexec] at h
        obtain ⟨c2, hc2, hn, he⟩ := ih e h
        exact ⟨c2, List.mem_cons_of_mem _ hc2, hn, he⟩
      | error e2 =>
        simp only [processCalls, hfind, hexec] at h
        refine ⟨c, List.mem_cons_self c rest, hfind, ?_⟩
        rw [hexec, Option.some.inj h]
/-- When every call in the batch is a delegation call, `processCalls`
never fails: helper outcomes, success or failure, are both converted
into tool-result messages. -/
theorem processCalls_delegation_nofail (env : CoordEnv) (hts : List HelperToolDesc)
    (dbg : Bool) (un : String) (conv : List Message) :
    ∀ (cs : List ToolCall),
      (∀ c ∈ cs, (isHelperCall hts c.fname).isSome) →
      (processCalls env hts dbg un conv cs).failed = none := by
  intro cs
  induction cs with
  | nil => intro _; simp [processCalls]
  | cons c rest ih =>
    intro hall
    have hrest := ih (fun x hx => hall x (List.mem_cons_of_mem _ hx))
    cases hfind : isHelperCall hts c.fname with
    | none =>
      have := hall c (List.mem_cons_self c rest)
      rw [hfind] at this
      simp at this
    | some ht =>
      simp only [processCalls, hfind]
      cases hfail : (executeHelper env ht.helperId
          (env.parseTaskContext c.argumentsStr).1
          (env.parseTaskContext c.argumentsStr).2 un (lastN 6 conv)).failed with
      | none => simpa using hrest
      | some e2 => simpa using hrest
/-- Every message `processCalls` produces is a tool-result message. -/
theorem processCalls_msgs_roles (env : CoordEnv) (hts : List HelperToolDesc)
    (dbg : Bool) (un : String) (conv : List Message) :
    ∀ (cs : List ToolCall),
      ((processCalls env hts dbg un conv cs).msgs.all
        (fun m => m.role == "tool")) = true := by
  intro cs
  induction cs with
  | nil => simp [processCalls]
  | cons c rest ih =>
    cases hfind : isHelperCall hts c.fname with
    | some ht =>
      simp only [processCalls, hfind]
      cases hfail : (executeHelper env ht.helperId
          (env.parseTaskContext c.argumentsStr).1
          (env.parseTaskContext c.argumentsStr).2 un (lastN 6 conv)).failed with
      | none => simpa using ih
      | some e2 => simpa using ih
    | none =>
      cases hexec : env.execTool c with
      | ok tr =>
        simp only [processCalls, hfind, hexec]
        simpa using ih
      | error e2 => simp [processCalls, hfind, hexec]
/-- The coordinator loop only appends to `currentMessages`, and every
appended message is an assistant or a tool-result message. -/
theorem coordLoop_msgs_extend (env : CoordEnv) (hts : List HelperToolDesc)
    (dbg : Bool) (un : String) (conv : List Message) :
    ∀ (fuel iter calls : Nat) (msgs : List Message) (fc : String)
      (ftc : List ToolCall) (evs : List DbgEvent),
      ∃ ex,
        (coordLoop env hts dbg un conv fuel iter calls msgs fc ftc evs).msgs =
          msgs ++ ex ∧
        (ex.all (fun m => m.role == "assistant" || m.role == "tool")) = true := by
  intro fuel
  induction fuel with
  | zero =>
    intro iter calls msgs fc ftc evs
    exact ⟨[], by simp [coordLoop], by simp⟩
  | succ f ih =>
    intro iter calls msgs fc ftc evs
    cases hstop : env.shouldStop (iter + 1) with
    | true => exact ⟨[], by simp [coordLoop, hstop], by simp⟩
    | false =>
      cases hm : env.modelResponse msgs with
      | error e => exact ⟨[], by simp [coordLoop, hstop, hm], by simp⟩
      | ok resp =>
        cases hE : resp.toolCalls.isEmpty with
        | true =>
          refine ⟨[{ role := "assistant", content := resp.content }], ?_, by simp⟩
          simp [coordLoop, hstop, hm, hE]
        | false =>
          cases hpf : (processCalls env hts dbg un conv resp.toolCalls).failed with
          | some e => exact ⟨[], by simp [coordLoop, hstop, hm, hE, hpf], by simp⟩
          | none =>
            obtain ⟨ex2, hex2, hroles2⟩ :=
              ih (iter + 1) (calls + 1)
                (msgs ++
                  [{ role := "assistant", content := resp.content,
                     toolCalls := resp.toolCalls }] ++
                  (processCalls env hts dbg un conv resp.toolCalls).msgs)
                resp.content resp.toolCalls
                ((evs ++
                  (if dbg then
                    [DbgEvent.mainIteration (iter + 1) (!false)
                      resp.toolCalls.length]
                  else [])) ++
                  (processCalls env hts dbg un conv resp.toolCalls).events)
            refine ⟨[{ role := "assistant", content := resp.content,
                       toolCalls := resp.toolCalls }] ++
                    (processCalls env hts dbg un conv resp.toolCalls).msgs ++ ex2,
                    ?_, ?_⟩
            · simp only [coordLoop, hstop, hm, hE, hpf]
              rw [hex2]
              simp [List.append_assoc]
            · have htool := processCalls_msgs_roles env hts dbg un conv resp.toolCalls
              have hlift : ((processCalls env hts dbg un conv resp.toolCalls).msgs.all
                  (fun m => m.role == "assistant" || m.role == "tool")) = true := by
                rw [List.all_eq_true] at htool ⊢
                intro m hm2
                have hmt := htool m hm2
                simp only [Bool.or_eq_true]
                right
                exact hmt
              simp only [List.all_append, Bool.and_eq_true]
              exact ⟨⟨by simp, hlift⟩, hroles2⟩
/-- The coordinator loop's own completion-service invocation count is
bounded by its remaining iteration budget. -/
theorem coordLoop_calls_le (env : CoordEnv) (hts : List HelperToolDesc)
    (dbg : Bool) (un : String) (conv : List Message) :
    ∀ (fuel iter calls : Nat) (msgs : List Message) (fc : String)
      (ftc : List ToolCall) (evs : List DbgEvent),
      (coordLoop env hts dbg un conv fuel iter calls msgs fc ftc evs).calls ≤
        calls + fuel := by
  intro fuel
  induction fuel with
  | zero => intro iter calls msgs fc ftc evs; simp [coordLoop]
  | succ f ih =>
    intro iter calls msgs fc ftc evs
    cases hstop : env.shouldStop (iter + 1) with
    | true => simp [coordLoop, hstop]
    | false =>
      cases hm : env.modelResponse msgs with
      | error e => simp [coordLoop, hstop, hm]
      | ok resp =>
        cases hE : resp.toolCalls.isEmpty with
        | true => simp [coordLoop, hstop, hm, hE]
        | false =>
          cases hpf : (processCalls env hts dbg un conv resp.toolCalls).failed with
          | some e => simp [coordLoop, hstop, hm, hE, hpf]
          | none =>
            simp only [coordLoop, hstop, hm, hE, hpf]
            have := ih (iter + 1) (calls + 1)
              (msgs ++
                [{ role := "assistant", content := resp.content,
                   toolCalls := resp.toolCalls }] ++
                (processCalls env hts dbg un conv resp.toolCalls).msgs)
              resp.content resp.toolCalls
              ((evs ++
                (if dbg then
                  [DbgEvent.mainIteration (iter + 1) (!false)
                    resp.toolCalls.length]
                else [])) ++
                (processCalls env hts dbg un conv resp.toolCalls).events)
            omega
/-- A failure escaping the coordinator loop is a completion-service
failure or an ordinary tool-call failure — never a helper failure. -/
theorem coordLoop_failed_source (env : CoordEnv) (hts : List HelperToolDesc)
    (dbg : Bool) (un : String) (conv : List Message) :
    ∀ (fuel iter calls : Nat) (msgs : List Message) (fc : String)
      (ftc : List ToolCall) (evs : List DbgEvent) (e : String),
      (coordLoop env hts dbg un conv fuel iter calls msgs fc ftc evs).failed = some e →
      (∃ ms, env.modelResponse ms = Except.error e) ∨
      ∃ c, isHelperCall hts c.fname = none ∧ env.execTool c = Except.error e := by
  intro fuel
  induction fuel with
  | zero => intro iter calls msgs fc ftc evs e h; simp [coordLoop] at h
  | succ f ih =>
    intro iter calls msgs fc ftc evs e h
    cases hstop : env.shouldStop (iter + 1) with
    | true => rw [coordLoop] at h; simp [hstop] at h
    | false =>
      cases hm : env.modelResponse msgs with
      | error e2 =>
        rw [coordLoop] at h
        simp [hstop, hm] at h
        exact Or.inl ⟨msgs, by rw [hm, h]⟩
      | ok resp =>
        cases hE : resp.toolCalls.isEmpty with
        | true => rw [coordLoop] at h; simp [hstop, hm, hE] at h
        | false =>
          cases hpf : (processCalls env hts dbg un conv resp.toolCalls).failed with
          | some e2 =>
            rw [coordLoop] at h
            simp [hstop, hm, hE, hpf] at h
            obtain ⟨c, _, hn, he⟩ :=
              processCalls_failed_source env hts dbg un conv resp.toolCalls e2 hpf
            exact Or.inr ⟨c, hn, by rw [he, h]⟩
          | none =>
            rw [coordLoop] at h
            simp only [hstop, hm, hE, hpf] at h
            exact ih _ _ _ _ _ _ _ h
/-- When the completion service always answers with delegation-only tool
calls and the caller never cancels, the coordinator loop spends its whole
budget and exits silently: no failure, exactly `fuel` model calls, and
the final response still carried tool calls. -/
theorem coordLoop_all_delegation (env : CoordEnv) (dbg : Bool) (un : String)
    (conv : List Message)
    (H1 : ∀ ms, ∃ r, env.modelResponse ms = Except.ok r ∧ r.toolCalls ≠ [] ∧
      ∀ c ∈ r.toolCalls, (isHelperCall getHelperAgentTools c.fname).isSome)
    (H2 : ∀ n, env.shouldStop n = false) :
    ∀ (fuel iter calls : Nat) (msgs : List Message) (fc : String)
      (ftc : List ToolCall) (evs : List DbgEvent),
      (coordLoop env getHelperAgentTools dbg un conv fuel iter calls msgs fc ftc
        evs).failed = none ∧
      (coordLoop env getHelperAgentTools dbg un conv fuel iter calls msgs fc ftc
        evs).calls = calls + fuel ∧
      (fuel = 0 →
        (coordLoop env getHelperAgentTools dbg un conv fuel iter calls msgs fc ftc
          evs).finalToolCalls = ftc) ∧
      (fuel ≠ 0 →
        (coordLoop env getHelperAgentTools dbg un conv fuel iter calls msgs fc ftc
          evs).finalToolCalls ≠ []) := by
  intro fuel
  induction fuel with
  | zero =>
    intro iter calls msgs fc ftc evs
    refine ⟨by simp [coordLoop], by simp [coordLoop], fun _ => by simp [coordLoop],
      fun hf => absurd rfl hf⟩
  | succ f ih =>
    intro iter calls msgs fc ftc evs
    obtain ⟨r, hr, hne, hall⟩ := H1 msgs
    have hE : r.toolCalls.isEmpty = false := by
      cases hcs : r.toolCalls with
      | nil => exact absurd hcs hne
      | cons a as => simp [hcs]
    have hpf : (processCalls env getHelperAgentTools dbg un conv r.toolCalls).failed =
        none :=
      processCalls_delegation_nofail env getHelperAgentTools dbg un conv r.toolCalls hall
    have ihx := ih (iter + 1) (calls + 1)
      (msgs ++
        [{ role := "assistant", content := r.content, toolCalls := r.toolCalls }] ++
        (processCalls env getHelperAgentTools dbg un conv r.toolCalls).msgs)
      r.content r.toolCalls
      ((evs ++
        (if dbg then
          [DbgEvent.mainIteration (iter + 1) (!false) r.toolCalls.length]
        else [])) ++
        (processCalls env getHelperAgentTools dbg un conv r.toolCalls).events)
    refine ⟨?_, ?_, fun hf => absurd hf (Nat.succ_ne_zero f), ?_⟩
    · simp only [coordLoop, H2 (iter + 1), hr, hE, hpf]
      exact ihx.1
    · simp only [coordLoop, H2 (iter + 1), hr, hE, hpf]
      rw [ihx.2.1]
      omega
    · intro _
      simp only [coordLoop, H2 (iter + 1), hr, hE, hpf]
      cases f with
      | zero =>
        rw [ihx.2.2.1 rfl]
        exact hne
      | succ f2 =>
        exact ihx.2.2.2 (Nat.succ_ne_zero f2)
/-- The helper loop's completion-service invocation count is bounded by
its remaining iteration budget. -/
theorem helperLoop_calls_le (env : CoordEnv) :
    ∀ (fuel iter calls : Nat) (msgs : List Message) (fc : String),
      (helperLoop env fuel iter calls msgs fc).calls ≤ calls + fuel := by
  intro fuel
  induction fuel with
  | zero => intro iter calls msgs fc; simp [helperLoop]
  | succ f ih =>
    intro iter calls msgs fc
    cases hstop : env.shouldStop (iter + 1) with
    | true => simp [helperLoop, hstop]
    | false =>
      cases hm : env.modelResponse msgs with
      | error e => simp [helperLoop, hstop, hm]
      | ok resp =>
        cases hE : resp.toolCalls.isEmpty with
        | true => simp [helperLoop, hstop, hm, hE]
        | false =>
          cases htr : helperToolResults env resp.toolCalls with
          | error e => simp [helperLoop, hstop, hm, hE, htr]
          | ok tms =>
            simp only [helperLoop, hstop, hm, hE, htr]
            have := ih (iter + 1) (calls + 1)
              (msgs ++
                [{ role := "assistant", content := resp.content,
                   toolCalls := resp.toolCalls }] ++ tms)
              resp.content
            omega
/-- A failure escaping the server chat loop is a completion-service
failure or the loop-budget message — never a tool-execution failure. -/
theorem serverLoop_failed_source (env : ServerEnv) :
    ∀ (fuel : Nat) (conv : List Message) (calls : Nat) (e : String),
      (serverLoop env fuel conv calls).failed = some e →
      (∃ ms, env.modelResponse ms = Except.error e) ∨
      e = "Tool invocation limit exceeded." := by
  intro fuel
  induction fuel with
  | zero =>
    intro conv calls e h
    simp [serverLoop] at h
    exact Or.inr h.symm
  | succ f ih =>
    intro conv calls e h
    cases hm : env.modelResponse conv with
    | error e2 =>
      rw [serverLoop] at h
      simp [hm] at h
      exact Or.inl ⟨conv, by rw [hm, h]⟩
    | ok resp =>
      cases hE : resp.toolCalls.isEmpty with
      | true => rw [serverLoop] at h; simp [hm, hE] at h
      | false =>
        rw [serverLoop] at h
        simp only [hm, hE] at h
        exact ih _ _ _ h
/-- When the completion service always answers with tool calls, the
server chat loop exhausts its budget and throws the distinct
loop-budget-exceeded error. -/
theorem serverLoop_budget (env : ServerEnv)
    (H : ∀ ms, ∃ r, env.modelResponse ms = Except.ok r ∧ r.toolCalls ≠ []) :
    ∀ (fuel : Nat) (conv : List Message) (calls : Nat),
      (serverLoop env fuel conv calls).failed =
        some "Tool invocation limit exceeded." := by
  intro fuel
  induction fuel with
  | zero => intro conv calls; simp [serverLoop]
  | succ f ih =>
    intro conv calls
    obtain ⟨r, hr, hne⟩ := H conv
    have hE : r.toolCalls.isEmpty = false := by
      cases hcs : r.toolCalls with
      | nil => exact absurd hcs hne
      | cons a as => simp [hcs]
    simp only [serverLoop, hr, hE]
    exact ih _ _
/-! ## Claim theorems for the coordinator and server loops -/
/-- C4: the number of completion-service invocations made by a
coordinator run's own loop never exceeds the coordinator's
`maxIterations`, and the number made by a helper run's own loop never
exceeds that helper's configured `maxIterations`. -/
theorem c4_completion_call_budget :
    ∀ (env : CoordEnv) (userMessage username : String) (conversation : List Message)
      (eh dbg : Bool) (helperId task ctx un2 : String) (conv2 : List Message),
      (handleRequest env userMessage username conversation eh dbg).1.calls ≤
        getMainAgent.maxIterations ∧
      (executeHelper env helperId task ctx un2 conv2).calls ≤
        helperMaxIterations helperId := by
  intro env um un conv eh dbg hid task ctx un2 conv2
  constructor
  · have := coordLoop_calls_le env (if eh then getHelperAgentTools else []) dbg un conv
      getMainAgent.maxIterations 0 0 (coordInitMessages un um conv) "" [] []
    simpa [handleRequest] using this
  · unfold executeHelper helperMaxIterations
    cases hga : getHelperAgent hid with
    | none => simp
    | some h =>
      simpa using helperLoop_calls_le env h.maxIterations 0 0
        (helperInitMessages h task ctx un2 conv2) ""
/-- C10: a coordinator run only appends to the working message list — the
initial system prompts, prior conversation and user message survive as an
unchanged prefix (the caller's conversation value is never mutated by the
pure embedding) — and the returned `messages` field is exactly the list
of messages appended during the run, in order: assistant and tool-result
messages only, never the system prompts or prior history. -/
theorem c10_returned_messages :
    ∀ (env : CoordEnv) (userMessage username : String) (conversation : List Message)
      (eh dbg : Bool),
      (handleRequest env userMessage username conversation eh dbg).1.msgs =
        coordInitMessages username userMessage conversation ++
          (handleRequest env userMessage username conversation eh dbg).2 ∧
      ((handleRequest env userMessage username conversation eh dbg).2.all
        (fun m => m.role == "assistant" || m.role == "tool")) = true := by
  intro env um un conv eh dbg
  obtain ⟨ex, hex, hroles⟩ :=
    coordLoop_msgs_extend env (if eh then getHelperAgentTools else []) dbg un conv
      getMainAgent.maxIterations 0 0 (coordInitMessages un um conv) "" [] []
  have h2 : (handleRequest env um un conv eh dbg).2 = ex := by
    simp only [handleRequest]
    rw [hex, List.drop_left]
  have h1 : (handleRequest env um un conv eh dbg).1.msgs =
      coordInitMessages un um conv ++ ex := by
    simp only [handleRequest]
    exact hex
  rw [h1, h2]
  exact ⟨rfl, hroles⟩
/-- C1 counterexample: in `handleRequest` an ordinary tool-call failure
is **not** converted into a tool-result message — the error is rethrown
(line 253 of `mainCoordinator.js`) and the whole turn aborts with it,
returning no appended messages at all. -/
theorem c1_counterexample :
    (handleRequest envC1 "hi" "bob" [] true true).1.failed =
      some "Tool service error (500): boom" ∧
    (handleRequest envC1 "hi" "bob" [] true true).2 = [] := by
  refine ⟨by decide, by decide⟩
/-- C1 (amended): in the server chat loop (`handleAssistantResponse`),
every ordinary tool-call failure — gateway unreachable, non-2xx reply,
or malformed JSON arguments — is caught at the tool-invocation boundary
and converted into a tool-result message carrying the error text, and
the loop proceeds: the only failures that escape are completion-service
failures and the loop-budget error.  In the coordinator's
`handleRequest`, by contrast, an ordinary tool-call failure is rethrown
and aborts the processing of the batch. -/
theorem c1_tool_failure_handling :
    ∀ (senv : ServerEnv) (fuel : Nat) (conv : List Message) (calls : Nat)
      (e : String) (cs : List ToolCall) (c : ToolCall) (env : CoordEnv)
      (hts : List HelperToolDesc) (dbg : Bool) (un : String)
      (conversation : List Message) (rest : List ToolCall),
      ((serverLoop senv fuel conv calls).failed = some e →
        (∃ ms, senv.modelResponse ms = Except.error e) ∨
        e = "Tool invocation limit exceeded.") ∧
      ((serverToolResults senv cs).length = cs.length) ∧
      (c ∈ cs → senv.execTool c = Except.error e →
        ({ role := "tool",
           name := some (if c.fname = "" then "tool" else c.fname),
           content := "Tool " ++ (if c.fname = "" then "unknown" else c.fname) ++
             " failed: " ++ e,
           toolCallId := some c.id, origin := some "tool" } : Message) ∈
          serverToolResults senv cs) ∧
      (isHelperCall hts c.fname = none → env.execTool c = Except.error e →
        (processCalls env hts dbg un conversation (c :: rest)).failed = some e) := by
  intro senv fuel conv calls e cs c env hts dbg un conversation rest
  refine ⟨serverLoop_failed_source senv fuel conv calls e,
    by simp [serverToolResults], ?_, ?_⟩
  · intro hc hexec
    simp only [serverToolResults]
    refine List.mem_map.mpr ⟨c, hc, ?_⟩
    simp [hexec]
  · intro hfind hexec
    simp [processCalls, hfind, hexec]
/-- Witness for `c1_tool_failure_handling` at concrete environments. -/
theorem c1_tool_failure_handling_witness :
    (serverLoop serverEnvModelErr 4 [] 0).failed = some "model down" ∧
    ((∃ ms, serverEnvModelErr.modelResponse ms = Except.error "model down") ∨
      "model down" = "Tool invocation limit exceeded.") ∧
    toolCallEx ∈ [toolCallEx] ∧
    serverEnvToolErr.execTool toolCallEx = Except.error "gateway unreachable" ∧
    (({ role := "tool", name := some "_fetch",
        content := "Tool _fetch failed: gateway unreachable",
        toolCallId := some "c1", origin := some "tool" } : Message) ∈
      serverToolResults serverEnvToolErr [toolCallEx]) ∧
    isHelperCall [] toolCallEx.fname = none ∧
    (processCalls coordEnvToolErr [] true "u" [] [toolCallEx]).failed =
      some "gateway unreachable" :=
  ⟨rfl,
   (c1_tool_failure_handling serverEnvModelErr 4 [] 0 "model down" [] toolCallEx
      coordEnvToolErr [] true "u" [] []).1 rfl,
   by decide,
   rfl,
   (c1_tool_failure_handling serverEnvToolErr 4 [] 0 "gateway unreachable"
      [toolCallEx] toolCallEx coordEnvToolErr [] true "u" [] []).2.2.1
     (by decide) rfl,
   rfl,
   (c1_tool_failure_handling serverEnvModelErr 4 [] 0 "gateway unreachable"
      [toolCallEx] toolCallEx coordEnvToolErr [] true "u" [] []).2.2.2 rfl rfl⟩
/-- C2 counterexample: the coordinator loop of `handleRequest` exhausts
its `maxIterations` budget without reaching the terminal state (the last
response still carried tool calls), yet the run reports **no** failure —
it returns a normal result with the partial content, a silent success. -/
theorem c2_counterexample :
    (handleRequest envC2 "go" "u" [] true true).1.failed = none ∧
    (handleRequest envC2 "go" "u" [] true true).1.calls =
      getMainAgent.maxIterations ∧
    (handleRequest envC2 "go" "u" [] true true).1.finalToolCalls ≠ [] := by
  refine ⟨by decide, by decide, by decide⟩
/-- C2 (amended): exhausting the iteration budget without reaching the
terminal state is reported as a distinct failure only in the server chat
loop, which throws `Tool invocation limit exceeded.`; the coordinator's
`handleRequest` loop instead exits silently, returning a successful
result with partial content and no distinct budget-exceeded signal. -/
theorem c2_loop_budget_outcome :
    ∀ (senv : ServerEnv) (conv : List Message) (env : CoordEnv)
      (userMessage username : String) (conversation : List Message) (dbg : Bool),
      ((∀ ms, ∃ r, senv.modelResponse ms = Except.ok r ∧ r.toolCalls ≠ []) →
        (handleAssistantResponse senv conv).failed =
          some "Tool invocation limit exceeded.") ∧
      ((∀ ms, ∃ r, env.modelResponse ms = Except.ok r ∧ r.toolCalls ≠ [] ∧
          ∀ c ∈ r.toolCalls, (isHelperCall getHelperAgentTools c.fname).isSome) →
       (∀ n, env.shouldStop n = false) →
        (handleRequest env userMessage username conversation true dbg).1.failed =
          none ∧
        (handleRequest env userMessage username conversation true dbg).1.calls =
          getMainAgent.maxIterations ∧
        (handleRequest env userMessage username conversation true
          dbg).1.finalToolCalls ≠ []) := by
  intro senv conv env um un conversation dbg
  constructor
  · intro H
    exact serverLoop_budget senv H MAX_TOOL_ITERATIONS conv 0
  · intro H1 H2
    have key := coordLoop_all_delegation env dbg un conversation H1 H2
      getMainAgent.maxIterations 0 0 (coordInitMessages un um conversation) "" [] []
    refine ⟨?_, ?_, ?_⟩
    · simpa [handleRequest] using key.1
    · have h := key.2.1
      simp only [handleRequest]
      simpa using h
    · have h := key.2.2.2 (by decide)
      simpa [handleRequest] using h
/-- Witness for `c2_loop_budget_outcome` at concrete environments. -/
theorem c2_loop_budget_outcome_witness :
    (handleAssistantResponse serverEnvLooping []).failed =
      some "Tool invocation limit exceeded." ∧
    (handleRequest envC2W "go" "u" [] true true).1.calls =
      getMainAgent.maxIterations :=
  ⟨(c2_loop_budget_outcome serverEnvLooping [] envC2W "go" "u" [] true).1
      (fun ms => ⟨_, rfl, by decide⟩),
   ((c2_loop_budget_outcome serverEnvLooping [] envC2W "go" "u" [] true).2
      (fun ms => ⟨_, rfl, by decide, by decide⟩)
      (fun n => rfl)).2.1⟩
/-- C8 counterexample: with `debug = false` a failed delegation emits
**no** `helper-error` event (the emission is gated on debug mode), even
though the error text is wrapped into a tool-result message and the loop
continues to a normal finish. -/
theorem c8_counterexample :
    (handleRequest envC8 "hi" "bob" [] true false).1.events = [] ∧
    (handleRequest envC8 "hi" "bob" [] true false).1.failed = none ∧
    (handleRequest envC8 "hi" "bob" [] true false).2 =
      [{ role := "assistant", content := "",
         toolCalls :=
           [{ id := "h1", fname := "call_research_agent", argumentsStr := "t" }] },
       { role := "tool", content := "Helper agent error: boom",
         toolCallId := some "h1", name := some "call_research_agent",
         origin := some "helper-agent" },
       { role := "assistant", content := "done" }] := by
  refine ⟨by decide, by decide, by decide⟩
/-- C8 (amended): for every delegation call whose helper execution
throws, the coordinator appends a tool-result message carrying the error
text and the originating `tool_call_id`, the failure never propagates
(the batch's failure status is whatever the remaining calls produce, and
a failure escaping the whole run can only be a completion-service or
ordinary-tool failure), and — when debug mode is enabled, as it is by
default — a `helper-error` event is emitted. -/
theorem c8_helper_failure_recoverable :
    ∀ (env : CoordEnv) (hts : List HelperToolDesc) (dbg : Bool) (un : String)
      (conv : List Message) (c : ToolCall) (rest : List ToolCall)
      (ht : HelperToolDesc) (e : String) (userMessage username : String)
      (conversation : List Message) (eh : Bool) (e2 : String),
      (isHelperCall hts c.fname = some ht →
       (executeHelper env ht.helperId (env.parseTaskContext c.argumentsStr).1
          (env.parseTaskContext c.argumentsStr).2 un (lastN 6 conv)).failed =
            some e →
        (processCalls env hts dbg un conv (c :: rest)).msgs =
          ({ role := "tool", name := some c.fname,
             content := "Helper agent error: " ++ e,
             toolCallId := some c.id, origin := some "helper-agent" } : Message) ::
            (processCalls env hts dbg un conv rest).msgs ∧
        (processCalls env hts dbg un conv (c :: rest)).failed =
          (processCalls env hts dbg un conv rest).failed ∧
        (dbg = true →
          DbgEvent.helperError ht.helperId e ∈
            (processCalls env hts dbg un conv (c :: rest)).events)) ∧
      ((handleRequest env userMessage username conversation eh dbg).1.failed =
          some e2 →
        (∃ ms, env.modelResponse ms = Except.error e2) ∨
        ∃ c2, isHelperCall (if eh then getHelperAgentTools else []) c2.fname = none ∧
          env.execTool c2 = Except.error e2) := by
  intro env hts dbg un conv c rest ht e um un2 conversation eh e2
  constructor
  · intro hfind hfail
    refine ⟨?_, ?_, ?_⟩
    · simp [processCalls, hfind, hfail]
    · simp [processCalls, hfind, hfail]
    · intro hd
      simp [processCalls, hfind, hfail, hd]
  · intro h
    exact coordLoop_failed_source env (if eh then getHelperAgentTools else []) dbg
      un2 conversation getMainAgent.maxIterations 0 0
      (coordInitMessages un2 um conversation) "" [] [] e2
      (by simpa [handleRequest] using h)
/-- Witness for `c8_helper_failure_recoverable` at a concrete failed
delegation (with debug enabled) and a concrete failed run. -/
theorem c8_helper_failure_recoverable_witness :
    isHelperCall getHelperAgentTools delegCallEx.fname =
      some researchDelegationTool ∧
    (executeHelper envC8W researchDelegationTool.helperId
        (envC8W.parseTaskContext delegCallEx.argumentsStr).1
        (envC8W.parseTaskContext delegCallEx.argumentsStr).2 "u"
        (lastN 6 [])).failed = some "boom" ∧
    (processCalls envC8W getHelperAgentTools true "u" [] [delegCallEx]).failed =
      (processCalls envC8W getHelperAgentTools true "u" [] []).failed ∧
    DbgEvent.helperError researchDelegationTool.helperId "boom" ∈
      (processCalls envC8W getHelperAgentTools true "u" [] [delegCallEx]).events ∧
    (handleRequest envC8W "go" "u" [] true true).1.failed = some "boom" ∧
    ((∃ ms, envC8W.modelResponse ms = Except.error "boom") ∨
      ∃ c2, isHelperCall (if true then getHelperAgentTools else []) c2.fname = none ∧
        envC8W.execTool c2 = Except.error "boom") :=
  ⟨by decide, by decide,
   ((c8_helper_failure_recoverable envC8W getHelperAgentTools true "u" [] delegCallEx
      [] researchDelegationTool "boom" "go" "u" [] true "boom").1 (by decide)
      (by decide)).2.1,
   ((c8_helper_failure_recoverable envC8W getHelperAgentTools true "u" [] delegCallEx
      [] researchDelegationTool "boom" "go" "u" [] true "boom").1 (by decide)
      (by decide)).2.2 rfl,
   by decide,
   (c8_helper_failure_recoverable envC8W getHelperAgentTools true "u" [] delegCallEx
      [] researchDelegationTool "boom" "go" "u" [] true "boom").2 (by decide)⟩
